import Mathlib

/-!
# ZenRoutine engine — shallow embedding and verification

This file embeds the "engine" layer of the ZenRoutine time-management app
(time utilities, routine-block validation and overlap detection, weekly
analytics aggregation, and goal-completion prediction) as executable Lean
definitions, translated from the TypeScript source, and proves the spec's
claimed properties about them.

Conventions of the embedding:
* TypeScript `number` values that are used as integral minute counts are
  modelled as `Int` (or `Nat` where the source domain is a nonnegative
  integer); values produced by division are modelled as `Rat`.
* `undefined` / optional fields become `Option`; a JS falsy string test
  (`!s`) is "none or empty string".
* `Map<string, number>` with get-or-0 is modelled as a total function
  `String → Int` with default 0, built by a fold over the blocks.
* `new Date()` (the real-time clock) is abstracted into an explicit
  `today : Int` day-number parameter; adding `d` days to a calendar date
  becomes `today + d`.
-/

namespace ZenRoutine

/-! ## Data model (src types) -/

/-- Lifecycle status of a goal. -/
inductive GoalStatus where
  | active
  | completed
  | paused
  | archived
deriving DecidableEq, Repr

/-- An activity category (`ActivityType` in the source). -/
structure ActivityType where
  id : String
  name : String
  color : String
  icon : Option String := none
  isDefault : Bool := false
  sortOrder : Int := 0
deriving DecidableEq, Repr

/-- A weekly routine time block (`RoutineBlock`). `dayOfWeek` is 0–6
(0 = Sunday); `startMinutes`/`endMinutes` are minutes from midnight. -/
structure RoutineBlock where
  id : String
  dayOfWeek : Int
  startMinutes : Int
  endMinutes : Int
  activityTypeId : String
  goalId : Option String := none
deriving DecidableEq, Repr

/-- A named weekly routine owning a list of blocks (`Routine`). -/
structure Routine where
  id : String
  name : String
  isActive : Bool
  blocks : List RoutineBlock
  createdAt : String := ""
  updatedAt : String := ""
deriving DecidableEq, Repr

/-- A time-bound goal (`Goal`). -/
structure Goal where
  id : String
  name : String
  description : String
  estimatedMinutes : Int
  loggedMinutes : Int
  activityTypeId : String
  status : GoalStatus
  createdAt : String := ""
  updatedAt : String := ""
  completedAt : Option String := none
deriving DecidableEq, Repr

/-- A record of actually tracked time (`TrackingEntry`); only the fields
the engine reads are carried. -/
structure TrackingEntry where
  id : String
  date : String
  startTime : String
  endTime : Option String := none
  activityTypeId : String
  goalId : Option String := none
deriving DecidableEq, Repr

/-! ## Time utilities (src/utils/time) -/

/-- The character for a single decimal digit `n < 10`. -/
def digitChar (n : Nat) : Char := Char.ofNat (48 + n)

/-- Fuel-driven decimal rendering (the fuel only bounds the recursion
depth; `n + 1` is always enough, see `natChars`). -/
def natCharsAux : Nat → Nat → List Char
  | 0, _ => []
  | fuel+1, n =>
    if n < 10 then [digitChar n]
    else natCharsAux fuel (n / 10) ++ [digitChar (n % 10)]

/-- Decimal rendering of a natural number, most significant digit first;
models the JS `Number → string` conversion used by template literals. -/
def natChars (n : Nat) : List Char := natCharsAux (n + 1) n

/-- Model of `String.padStart(2, '0')` on a char list. -/
def padTwo (l : List Char) : List Char :=
  if l.length ≥ 2 then l else List.replicate (2 - l.length) '0' ++ l

/-- Function `minutesToTimeString`: minutes from midnight to zero-padded "HH:MM".
The source takes a JS number; the claim's domain is the nonnegative
integers `[0, 1439]`, modelled as `Nat` (for which JS `Math.floor(m/60)`
and `m % 60` are `Nat` division and mod). -/
def minutesToTimeString (minutes : Nat) : String :=
  String.mk (padTwo (natChars (minutes / 60)) ++ [':'] ++ padTwo (natChars (minutes % 60)))

/-- JS `Number(...)` restricted to strings of decimal digits (the only
inputs the round-trip claim exercises). -/
def parseNumber (l : List Char) : Nat :=
  l.foldl (fun acc c => acc * 10 + (c.toNat - 48)) 0

/-- Model of `split(':')` on a char list. -/
def splitColon (l : List Char) : List (List Char) :=
  match l with
  | [] => [[]]
  | c :: rest =>
    match splitColon rest with
    | [] => if c = ':' then [[], []] else [[c]]
    | p :: ps => if c = ':' then [] :: p :: ps else (c :: p) :: ps

/-- Function `timeStringToMinutes`: parses "HH:MM" (destructuring the first two
fragments of `split(':')`) and returns `hours*60 + minutes`. -/
def timeStringToMinutes (timeString : String) : Nat :=
  let parts := splitColon timeString.data
  parseNumber (parts.getD 0 []) * 60 + parseNumber (parts.getD 1 [])

/-- JS `Math.round`: round half toward positive infinity. -/
def jsRound (x : Rat) : Int := Int.floor (x + 1/2)

/-- Function `formatDuration`: rounds to the nearest minute, then renders "Nm" if
below an hour, "Xh" on a whole number of hours, "Xh Ym" otherwise.
JS `Math.floor(t/60)` is `Int.fdiv`; `t % 60` agrees with `Int.emod` on
the nonnegative domain the claims quantify over. -/
def formatDuration (minutes : Rat) : String :=
  let totalMinutes := jsRound minutes
  if totalMinutes < 60 then
    String.mk (natChars totalMinutes.toNat ++ ['m'])
  else
    let hours := Int.fdiv totalMinutes 60
    let remainingMinutes := Int.emod totalMinutes 60
    if remainingMinutes = 0 then
      String.mk (natChars hours.toNat ++ ['h'])
    else
      String.mk (natChars hours.toNat ++ ['h', ' '] ++ natChars remainingMinutes.toNat ++ ['m'])

/-! ## Validation (src validation module) -/

/-- A structured validation error. -/
structure ValidationError where
  field : String
  message : String
deriving DecidableEq, Repr

/-- The result of a validation run. -/
structure ValidationResult where
  isValid : Bool
  errors : List ValidationError
deriving DecidableEq, Repr

/-- The partial routine block handed to `validateRoutineBlock`
(`Partial<RoutineBlock>`): every field may be `undefined`. -/
structure PartialRoutineBlock where
  id : Option String := none
  dayOfWeek : Option Int := none
  startMinutes : Option Int := none
  endMinutes : Option Int := none
  activityTypeId : Option String := none
  goalId : Option String := none
deriving DecidableEq, Repr

/-- Check `block.startMinutes === undefined || block.startMinutes < 0 ||
block.startMinutes >= 1440` (same test for `endMinutes`). -/
def minuteOutOfRange (o : Option Int) : Bool :=
  match o with
  | none => true
  | some s => decide (s < 0) || decide (1440 ≤ s)

/-- Both bounds present and equal (the zero-duration check). -/
def zeroDurationCheck (s e : Option Int) : Bool :=
  match s, e with
  | some a, some b => decide (a = b)
  | _, _ => false

/-- Check `block.dayOfWeek === undefined || block.dayOfWeek < 0 ||
block.dayOfWeek > 6`. -/
def dayOutOfRange (o : Option Int) : Bool :=
  match o with
  | none => true
  | some d => decide (d < 0) || decide (6 < d)

/-- Check `!block.activityTypeId` (JS falsy: `undefined` or the empty string). -/
def activityMissing (o : Option String) : Bool :=
  match o with
  | none => true
  | some s => decide (s = "")

/-- Function `validateRoutineBlock`: runs all applicable checks independently,
collecting one `{field, message}` error per failing check; valid iff the
error list is empty. -/
def validateRoutineBlock (block : PartialRoutineBlock) : ValidationResult :=
  let errors : List ValidationError :=
    (if minuteOutOfRange block.startMinutes then
      [⟨"startMinutes", "Start time must be between 0 and 1439 minutes"⟩] else []) ++
    (if minuteOutOfRange block.endMinutes then
      [⟨"endMinutes", "End time must be between 0 and 1439 minutes"⟩] else []) ++
    (if zeroDurationCheck block.startMinutes block.endMinutes then
      [⟨"endMinutes", "Block must have a duration greater than 0"⟩] else []) ++
    (if dayOutOfRange block.dayOfWeek then
      [⟨"dayOfWeek", "Day of week must be between 0 (Sunday) and 6 (Saturday)"⟩] else []) ++
    (if activityMissing block.activityTypeId then
      [⟨"activityTypeId", "Activity type is required"⟩] else [])
  ⟨errors.length = 0, errors⟩

/-- Function `findOverlappingBlocks`: keeps every existing block that is not the
candidate itself (by id), lies on the candidate's day, and fails the
disjointness test `newEnd <= existingStart || newStart >= existingEnd`
on the raw minute values. -/
def findOverlappingBlocks (blocks : List RoutineBlock) (newBlock : RoutineBlock) :
    List RoutineBlock :=
  blocks.filter (fun existing =>
    if existing.id = newBlock.id then false
    else if existing.dayOfWeek ≠ newBlock.dayOfWeek then false
    else
      !(decide (newBlock.endMinutes ≤ existing.startMinutes) ||
        decide (existing.endMinutes ≤ newBlock.startMinutes)))

/-! ## Analytics (src analytics module) -/

/-- Minutes in a 7-day week (`MINUTES_IN_WEEK = 7 * 24 * 60`). -/
def MINUTES_IN_WEEK : Int := 7 * 24 * 60

/-- One row of the weekly breakdown (`WeeklyBreakdown`). -/
structure WeeklyBreakdown where
  activityTypeId : String
  activityTypeName : String
  color : String
  plannedMinutes : Int
  actualMinutes : Int
  percentageOfWeek : Rat
deriving DecidableEq, Repr

/-- The wrap-adjusted duration of a block, as computed inline by both
`getRoutineBreakdown` and `getWeeklyMinutesForActivityType`:
`duration < 0 ? duration + 1440 : duration`. -/
def adjustedDuration (block : RoutineBlock) : Int :=
  let duration := block.endMinutes - block.startMinutes
  if duration < 0 then duration + 1440 else duration

/-- The `minutesByType` map of `getRoutineBreakdown`: a fold over the
blocks accumulating wrap-adjusted durations per `activityTypeId`,
modelled as a total function with get-or-0 semantics. -/
def accumMinutes (blocks : List RoutineBlock) : String → Int :=
  blocks.foldl
    (fun m block => fun key =>
      if key = block.activityTypeId then m key + adjustedDuration block else m key)
    (fun _ => 0)

/-- The row built for one activity type inside `getRoutineBreakdown`'s
`activityTypes.map(...)`. -/
def breakdownRow (minutesByType : String → Int) (a : ActivityType) : WeeklyBreakdown :=
  let plannedMinutes := minutesByType a.id
  { activityTypeId := a.id
    activityTypeName := a.name
    color := a.color
    plannedMinutes := plannedMinutes
    actualMinutes := 0
    percentageOfWeek := ((plannedMinutes : Rat) / (MINUTES_IN_WEEK : Rat)) * 100 }

/-- Function `getRoutineBreakdown`: accumulate wrap-adjusted minutes per activity
type, build one row per activity type, drop rows with zero planned
minutes, and sort descending by `plannedMinutes` (JS `Array.sort` with
comparator `b.plannedMinutes - a.plannedMinutes` is a stable sort kept
as `mergeSort`). -/
def getRoutineBreakdown (routine : Routine) (activityTypes : List ActivityType) :
    List WeeklyBreakdown :=
  let minutesByType := accumMinutes routine.blocks
  ((activityTypes.map (breakdownRow minutesByType)).filter
      (fun b => decide (0 < b.plannedMinutes))).mergeSort
    (fun a b => decide (b.plannedMinutes ≤ a.plannedMinutes))

/-! ## Prediction (src prediction module) -/

/-- Coarse confidence label of a prediction. -/
inductive ConfidenceLevel where
  | low
  | medium
  | high
deriving DecidableEq, Repr

/-- The result of a goal-completion prediction (`PredictionResult`);
`predictedCompletionDate` is an abstract calendar day number
(`none` = JS `null`), `weeksRemaining` is `none` for JS `null`. -/
structure PredictionResult where
  goalId : String
  predictedCompletionDate : Option Int
  weeklyMinutesAllocated : Int
  remainingMinutes : Int
  weeksRemaining : Option Rat
  confidenceLevel : ConfidenceLevel
deriving DecidableEq, Repr

/-- Function `getWeeklyMinutesForActivityType`: sum of wrap-adjusted durations of
the routine's blocks matching the activity type. -/
def getWeeklyMinutesForActivityType (routine : Routine) (activityTypeId : String) : Int :=
  (routine.blocks.filter (fun block => decide (block.activityTypeId = activityTypeId))).foldl
    (fun sum block => sum + adjustedDuration block) 0

/-- Function `predictGoalCompletion`: linear-rate projection of a goal's
completion from the routine's weekly allocation, with a degenerate
branch when the rate is 0 or nothing remains. `today` abstracts
`new Date()` as a calendar day number. -/
def predictGoalCompletion (today : Int) (goal : Goal) (routine : Routine)
    (trackingHistory : Option (List TrackingEntry)) : PredictionResult :=
  let weeklyMinutes := getWeeklyMinutesForActivityType routine goal.activityTypeId
  let remainingMinutes := goal.estimatedMinutes - goal.loggedMinutes
  if weeklyMinutes = 0 ∨ remainingMinutes ≤ 0 then
    { goalId := goal.id
      predictedCompletionDate := if remainingMinutes ≤ 0 then some today else none
      weeklyMinutesAllocated := weeklyMinutes
      remainingMinutes := max 0 remainingMinutes
      weeksRemaining := if remainingMinutes ≤ 0 then some 0 else none
      confidenceLevel := ConfidenceLevel.low }
  else
    let weeksRemaining : Rat := (remainingMinutes : Rat) / (weeklyMinutes : Rat)
    let daysRemaining : Int := Int.ceil (weeksRemaining * 7)
    let completionDate : Int := today + daysRemaining
    let confidenceLevel : ConfidenceLevel :=
      match trackingHistory with
      | none => ConfidenceLevel.low
      | some history =>
        if 0 < history.length then
          let relevantEntries :=
            history.filter (fun e => decide (e.activityTypeId = goal.activityTypeId))
          if 14 ≤ relevantEntries.length then ConfidenceLevel.high
          else if 7 ≤ relevantEntries.length then ConfidenceLevel.medium
          else ConfidenceLevel.low
        else ConfidenceLevel.low
    { goalId := goal.id
      predictedCompletionDate := some completionDate
      weeklyMinutesAllocated := weeklyMinutes
      remainingMinutes := remainingMinutes
      weeksRemaining := some weeksRemaining
      confidenceLevel := confidenceLevel }

/-- Function `predictAllGoals`: one prediction per goal with status `"active"`,
in the goals' order; non-active goals are skipped. -/
def predictAllGoals (today : Int) (goals : List Goal) (routine : Routine)
    (trackingHistory : Option (List TrackingEntry)) : List PredictionResult :=
  (goals.filter (fun g => decide (g.status = GoalStatus.active))).map
    (fun goal => predictGoalCompletion today goal routine trackingHistory)

/-! ## Helper lemmas -/

/-- Every prediction result carries the id of the goal it was built from. -/
theorem predictGoalCompletion_goalId (today : Int) (goal : Goal) (routine : Routine)
    (trackingHistory : Option (List TrackingEntry)) :
    (predictGoalCompletion today goal routine trackingHistory).goalId = goal.id := by
  simp only [predictGoalCompletion]
  split <;> rfl

/-- Folding `+ adjustedDuration` over a list sums the adjusted durations. -/
theorem foldl_add_adjustedDuration (l : List RoutineBlock) (init : Int) :
    l.foldl (fun sum block => sum + adjustedDuration block) init =
      init + (l.map adjustedDuration).sum := by
  induction l generalizing init with
  | nil => simp
  | cons b t ih => simp [ih]; ring

/-- Lemma: `getWeeklyMinutesForActivityType` is the sum of the wrap-adjusted
durations of the matching blocks. -/
theorem getWeeklyMinutesForActivityType_eq_sum (routine : Routine) (activityTypeId : String) :
    getWeeklyMinutesForActivityType routine activityTypeId =
      ((routine.blocks.filter (fun block =>
        decide (block.activityTypeId = activityTypeId))).map adjustedDuration).sum := by
  simp [getWeeklyMinutesForActivityType, foldl_add_adjustedDuration]

/-- The accumulated map of `getRoutineBreakdown` reads back, at any key,
the sum of the wrap-adjusted durations of the blocks with that
`activityTypeId`. -/
theorem accumMinutes_eq_sum (blocks : List RoutineBlock) (key : String) :
    accumMinutes blocks key =
      ((blocks.filter (fun block => decide (block.activityTypeId = key))).map
        adjustedDuration).sum := by
  suffices h : ∀ (l : List RoutineBlock) (m : String → Int),
      (l.foldl (fun m block => fun k =>
        if k = block.activityTypeId then m k + adjustedDuration block else m k) m) key =
      m key + ((l.filter (fun block => decide (block.activityTypeId = key))).map
        adjustedDuration).sum by
    simpa using h blocks (fun _ => 0)
  intro l
  induction l with
  | nil => simp
  | cons b t ih =>
    intro m
    simp only [List.foldl_cons, ih]
    by_cases hk : key = b.activityTypeId
    · simp [List.filter_cons, hk.symm, if_pos hk]
      ring
    · have hk' : ¬(b.activityTypeId = key) := fun h => hk h.symm
      simp [List.filter_cons, hk', if_neg hk]

/-- Value of `digitChar` of a digit is the corresponding ASCII digit character. -/
theorem digitChar_toNat (n : Nat) (h : n < 10) : (digitChar n).toNat = 48 + n := by
  interval_cases n <;> decide

/-- Rendering a one-digit number. -/
theorem natChars_small (n : Nat) (h : n < 10) : natChars n = [digitChar n] := by
  simp [natChars, natCharsAux, h]

/-- Rendering a two-digit number. -/
theorem natChars_mid (n : Nat) (h10 : 10 ≤ n) (h100 : n < 100) :
    natChars n = [digitChar (n / 10), digitChar (n % 10)] := by
  cases n with
  | zero => omega
  | succ k =>
    have hd : (k + 1) / 10 < 10 := by omega
    have hn : ¬(k + 1 < 10) := by omega
    simp [natChars, natCharsAux, hn, hd]

/-- Every character produced by the decimal renderer is an ASCII digit. -/
theorem natCharsAux_digits (fuel : Nat) :
    ∀ n c, c ∈ natCharsAux fuel n → 48 ≤ c.toNat ∧ c.toNat ≤ 57 := by
  induction fuel with
  | zero => intro n c hc; simp [natCharsAux] at hc
  | succ f ih =>
    intro n c hc
    by_cases hn : n < 10
    · simp [natCharsAux, hn] at hc
      subst hc
      rw [digitChar_toNat n hn]
      omega
    · simp [natCharsAux, hn] at hc
      rcases hc with hc | hc
      · exact ih _ c hc
      · subst hc
        rw [digitChar_toNat _ (Nat.mod_lt _ (by omega))]
        have : n % 10 < 10 := by omega
        omega

/-- No colon ever appears in a zero-padded decimal rendering. -/
theorem colon_not_mem_padTwo_natChars (n : Nat) : ':' ∉ padTwo (natChars n) := by
  intro hmem
  have hdig : ∀ c ∈ padTwo (natChars n), 48 ≤ c.toNat ∧ c.toNat ≤ 57 := by
    intro c hc
    simp only [padTwo] at hc
    split at hc
    · exact natCharsAux_digits _ _ c hc
    · rcases List.mem_append.mp hc with hc | hc
      · have : c = '0' := by simpa using List.eq_of_mem_replicate hc
        subst this; decide
      · exact natCharsAux_digits _ _ c hc
  have := hdig ':' hmem
  simp at this

/-- Parsing the zero-padded rendering of a number below 100 recovers it. -/
theorem parseNumber_padTwo_natChars (n : Nat) (h : n < 100) :
    parseNumber (padTwo (natChars n)) = n := by
  by_cases h10 : n < 10
  · rw [natChars_small n h10]
    have : padTwo [digitChar n] = ['0', digitChar n] := by
      simp [padTwo, List.replicate]
    rw [this]
    simp [parseNumber, digitChar_toNat n h10]
  · rw [natChars_mid n (by omega) h]
    have : padTwo [digitChar (n / 10), digitChar (n % 10)] =
        [digitChar (n / 10), digitChar (n % 10)] := by
      simp [padTwo]
    rw [this]
    have hd : n / 10 < 10 := by omega
    have hm : n % 10 < 10 := Nat.mod_lt _ (by omega)
    simp [parseNumber, digitChar_toNat _ hd, digitChar_toNat _ hm]
    omega

/-- Lemma: `splitColon` always returns at least one fragment. -/
theorem splitColon_ne_nil (l : List Char) : splitColon l ≠ [] := by
  induction l with
  | nil => simp [splitColon]
  | cons c rest ih =>
    cases hsp : splitColon rest with
    | nil => exact absurd hsp ih
    | cons p ps => by_cases hc : c = ':' <;> simp [splitColon, hsp, hc]

/-- A colon-free list is a single fragment. -/
theorem splitColon_no_colon (l : List Char) (h : ':' ∉ l) : splitColon l = [l] := by
  induction l with
  | nil => rfl
  | cons c rest ih =>
    have hc : c ≠ ':' := fun hc => h (hc ▸ List.mem_cons_self c rest)
    have hrest : ':' ∉ rest := fun hr => h (List.mem_cons_of_mem c hr)
    simp only [splitColon, ih hrest]
    rw [if_neg hc]

/-- Splitting at the first colon after a colon-free prefix. -/
theorem splitColon_append (a r : List Char) (h : ':' ∉ a) :
    splitColon (a ++ ':' :: r) = a :: splitColon r := by
  induction a with
  | nil =>
    simp only [List.nil_append, splitColon]
    cases hsp : splitColon r with
    | nil => exact absurd hsp (splitColon_ne_nil r)
    | cons p ps => simp
  | cons c a' ih =>
    have hc : c ≠ ':' := fun hc => h (hc ▸ List.mem_cons_self c a')
    have ha' : ':' ∉ a' := fun hr => h (List.mem_cons_of_mem c hr)
    simp only [List.cons_append, splitColon, List.append_eq, ih ha']
    cases hsp : splitColon r with
    | nil => exact absurd hsp (splitColon_ne_nil r)
    | cons p ps => simp [hsp, hc]

/-- Projection `String.data` of a `String.mk` is the underlying character list. -/
theorem stringData_mk (l : List Char) : (String.mk l).data = l := rfl

/-- Character 'h' is not a digit, so it never occurs in a decimal rendering. -/
theorem hChar_not_mem_natChars (n : Nat) : 'h' ∉ natChars n := by
  intro hmem
  have hb := natCharsAux_digits (n + 1) n 'h' hmem
  have : ('h').toNat = 104 := rfl
  omega

/-- A decimal rendering of a number below 100 has at most two characters. -/
theorem natChars_length_le_two (n : Nat) (h : n < 100) : (natChars n).length ≤ 2 := by
  by_cases h10 : n < 10
  · rw [natChars_small n h10]; simp
  · rw [natChars_mid n (by omega) h]; simp

/-- The only single digit rendered as `'0'` is 0. -/
theorem digitChar_eq_zero (n : Nat) (h : n < 10) (he : digitChar n = '0') : n = 0 := by
  have h1 : (digitChar n).toNat = 48 + n := digitChar_toNat n h
  rw [he] at h1
  have : ('0').toNat = 48 := rfl
  omega

/-- The start/end range check passes exactly on a present bound in
`[0, 1439]`. -/
theorem minuteOutOfRange_eq_false (o : Option Int) :
    minuteOutOfRange o = false ↔ ∃ s, o = some s ∧ 0 ≤ s ∧ s ≤ 1439 := by
  cases o with
  | none => simp [minuteOutOfRange]
  | some s => simp [minuteOutOfRange]; omega

/-- The zero-duration check passes exactly when the bounds do not
coincide (vacuously when either is absent). -/
theorem zeroDurationCheck_eq_false (s e : Option Int) :
    zeroDurationCheck s e = false ↔
      ∀ a b, s = some a → e = some b → a ≠ b := by
  cases s <;> cases e <;> simp [zeroDurationCheck]

/-- The day check passes exactly on a present day in `[0, 6]`. -/
theorem dayOutOfRange_eq_false (o : Option Int) :
    dayOutOfRange o = false ↔ ∃ d, o = some d ∧ 0 ≤ d ∧ d ≤ 6 := by
  cases o with
  | none => simp [dayOutOfRange]
  | some d => simp [dayOutOfRange]

/-- The activity check passes exactly on a present, nonempty id. -/
theorem activityMissing_eq_false (o : Option String) :
    activityMissing o = false ↔ ∃ a, o = some a ∧ a ≠ "" := by
  cases o <;> simp [activityMissing]

/-! ## Concrete sample data (used by witnesses and counterexamples) -/

/-- A goal whose estimate is fully logged (remaining = 0). -/
def sampleGoalDone : Goal :=
  { id := "g1", name := "Learn Lean", description := "", estimatedMinutes := 600,
    loggedMinutes := 600, activityTypeId := "a1", status := GoalStatus.active }

/-- A goal with 600 minutes remaining. -/
def sampleGoalOpen : Goal :=
  { id := "g2", name := "Learn Lean", description := "", estimatedMinutes := 600,
    loggedMinutes := 0, activityTypeId := "a1", status := GoalStatus.active }

/-- A routine with no blocks at all. -/
def emptyRoutine : Routine :=
  { id := "r0", name := "Empty", isActive := true, blocks := [] }

/-- A routine allocating a single 300-minute block to activity "a1". -/
def sampleRoutine300 : Routine :=
  { id := "r1", name := "Work Week", isActive := true,
    blocks := [{ id := "b1", dayOfWeek := 1, startMinutes := 540, endMinutes := 840,
                 activityTypeId := "a1" }] }

/-- A degenerate block whose end equals its start (300 = 300). -/
def zeroSpanBlock : RoutineBlock :=
  { id := "b1", dayOfWeek := 1, startMinutes := 300, endMinutes := 300,
    activityTypeId := "a1" }

/-- A routine holding only `zeroSpanBlock`. -/
def zeroSpanRoutine : Routine :=
  { id := "r1", name := "R", isActive := true, blocks := [zeroSpanBlock] }

/-- A block wrapping past midnight: 23:00 (1380) to 02:00 (120). -/
def wrapBlock : RoutineBlock :=
  { id := "b1", dayOfWeek := 1, startMinutes := 1380, endMinutes := 120,
    activityTypeId := "a1" }

/-- A routine with two blocks of the same activity type of durations 60
and 90 minutes. -/
def twoBlockRoutine : Routine :=
  { id := "r2", name := "Two", isActive := true,
    blocks := [{ id := "b1", dayOfWeek := 1, startMinutes := 540, endMinutes := 600,
                 activityTypeId := "a1" },
               { id := "b2", dayOfWeek := 2, startMinutes := 600, endMinutes := 690,
                 activityTypeId := "a1" }] }

/-- A single activity type "a1". -/
def oneActivityType : List ActivityType :=
  [{ id := "a1", name := "Deep Work", color := "#fff" }]

/-! ## Claims -/

/-- C2: `findOverlappingBlocks` returns exactly those existing blocks
with a different id, the same `dayOfWeek`, and for which
`!(candidateEnd <= existingStart || candidateStart >= existingEnd)`
holds on the raw minute values; a merely touching block, or a block on
another day, is never returned. -/
theorem findOverlappingBlocks_spec (blocks : List RoutineBlock) (newBlock b : RoutineBlock) :
    (b ∈ findOverlappingBlocks blocks newBlock ↔
      b ∈ blocks ∧ b.id ≠ newBlock.id ∧ b.dayOfWeek = newBlock.dayOfWeek ∧
        ¬(newBlock.endMinutes ≤ b.startMinutes ∨ b.endMinutes ≤ newBlock.startMinutes)) ∧
    ((newBlock.endMinutes = b.startMinutes ∨ newBlock.startMinutes = b.endMinutes) →
      b ∉ findOverlappingBlocks blocks newBlock) ∧
    (b.dayOfWeek ≠ newBlock.dayOfWeek → b ∉ findOverlappingBlocks blocks newBlock) := by
  have main : b ∈ findOverlappingBlocks blocks newBlock ↔
      b ∈ blocks ∧ b.id ≠ newBlock.id ∧ b.dayOfWeek = newBlock.dayOfWeek ∧
        ¬(newBlock.endMinutes ≤ b.startMinutes ∨ b.endMinutes ≤ newBlock.startMinutes) := by
    simp only [findOverlappingBlocks, List.mem_filter]
    by_cases h1 : b.id = newBlock.id <;> by_cases h2 : b.dayOfWeek = newBlock.dayOfWeek <;>
      simp [h1, h2, not_or]
  refine ⟨main, ?_, ?_⟩
  · intro htouch hmem
    rcases (main.mp hmem).2.2.2 with hno
    omega
  · intro hday hmem
    exact hday (main.mp hmem).2.2.1

/-- C8: `predictAllGoals` yields exactly one result per goal with status
"active", in the goals' order (the returned `goalId`s are the ids of the
active goals in order), and every returned entry arises from an active
goal — never from a completed, paused, or archived one. -/
theorem predictAllGoals_spec (today : Int) (goals : List Goal) (routine : Routine)
    (trackingHistory : Option (List TrackingEntry)) :
    (predictAllGoals today goals routine trackingHistory).map
        (fun r => r.goalId) =
      (goals.filter (fun g => decide (g.status = GoalStatus.active))).map (fun g => g.id) ∧
    ∀ r ∈ predictAllGoals today goals routine trackingHistory,
      ∃ g ∈ goals, g.status = GoalStatus.active ∧
        r = predictGoalCompletion today g routine trackingHistory := by
  constructor
  · simp only [predictAllGoals, List.map_map]
    apply List.map_congr_left
    intro g _
    exact predictGoalCompletion_goalId today g routine trackingHistory
  · intro r hr
    simp only [predictAllGoals, List.mem_map, List.mem_filter,
      decide_eq_true_eq] at hr
    obtain ⟨g, ⟨hg, hact⟩, rfl⟩ := hr
    exact ⟨g, hg, hact, rfl⟩

/-- C10: the `remainingMinutes` field of every prediction result is
nonnegative: the degenerate branch clamps it with `max 0`, and the
projection branch is only reached with strictly positive remaining
minutes. -/
theorem predictGoalCompletion_remainingMinutes_nonneg (today : Int) (goal : Goal)
    (routine : Routine) (trackingHistory : Option (List TrackingEntry)) :
    0 ≤ (predictGoalCompletion today goal routine trackingHistory).remainingMinutes := by
  simp only [predictGoalCompletion]
  split
  · exact le_max_left 0 _
  · rename_i h
    push_neg at h
    show 0 ≤ goal.estimatedMinutes - goal.loggedMinutes
    omega

/-- C1 counterexample: a block with `endMinutes = startMinutes` (300 =
300) satisfies "endMinutes ≤ startMinutes", yet its effective duration —
in `adjustedDuration`, hence in both aggregations — is 0, not
`(1440 − 300) + 300 = 1440`, a zero span. -/
theorem adjustedDuration_boundary_counterexample :
    zeroSpanBlock.endMinutes ≤ zeroSpanBlock.startMinutes ∧
    adjustedDuration zeroSpanBlock = 0 ∧
    getWeeklyMinutesForActivityType zeroSpanRoutine "a1" = 0 ∧
    ((1440 : Int) - zeroSpanBlock.startMinutes) + zeroSpanBlock.endMinutes ≠ 0 := by decide

/-- C1 (amended): only for `endMinutes` strictly below `startMinutes`
does the wrap-adjustment fire, giving `(1440 − startMinutes) +
endMinutes` — a positive span for in-range bounds; at `endMinutes =
startMinutes` the effective duration is 0. This per-block duration is
exactly what `getWeeklyMinutesForActivityType` sums and what
`getRoutineBreakdown` accumulates into `plannedMinutes`. -/
theorem adjustedDuration_wrap (b : RoutineBlock) (h : b.endMinutes < b.startMinutes) :
    adjustedDuration b = (1440 - b.startMinutes) + b.endMinutes ∧
    (0 ≤ b.endMinutes → b.startMinutes ≤ 1439 → 0 < adjustedDuration b) ∧
    (∀ (routine : Routine) (activityTypeId : String),
      getWeeklyMinutesForActivityType routine activityTypeId =
        ((routine.blocks.filter (fun block =>
          decide (block.activityTypeId = activityTypeId))).map adjustedDuration).sum) ∧
    (∀ (routine : Routine) (activityTypes : List ActivityType) (row : WeeklyBreakdown),
      row ∈ getRoutineBreakdown routine activityTypes →
        row.plannedMinutes =
          ((routine.blocks.filter (fun block =>
            decide (block.activityTypeId = row.activityTypeId))).map
            adjustedDuration).sum) := by
  have hdur : adjustedDuration b = (1440 - b.startMinutes) + b.endMinutes := by
    simp only [adjustedDuration]
    rw [if_pos (by omega)]
    ring
  refine ⟨hdur, fun h1 h2 => by omega, fun r atid => getWeeklyMinutesForActivityType_eq_sum r atid, ?_⟩
  intro routine activityTypes row hrow
  simp only [getRoutineBreakdown, List.mem_mergeSort, List.mem_filter, List.mem_map] at hrow
  obtain ⟨⟨a, ha, rfl⟩, hpos⟩ := hrow
  simpa [breakdownRow] using accumMinutes_eq_sum routine.blocks a.id

/-- Witness for C1: a block from 23:00 (1380) to 02:00 (120) wraps past
midnight with an effective duration of `(1440 − 1380) + 120 = 180`. -/
theorem adjustedDuration_wrap_witness :
    wrapBlock.endMinutes < wrapBlock.startMinutes ∧
    (adjustedDuration wrapBlock = (1440 - wrapBlock.startMinutes) + wrapBlock.endMinutes ∧
    (0 ≤ wrapBlock.endMinutes → wrapBlock.startMinutes ≤ 1439 →
      0 < adjustedDuration wrapBlock) ∧
    (∀ (routine : Routine) (activityTypeId : String),
      getWeeklyMinutesForActivityType routine activityTypeId =
        ((routine.blocks.filter (fun block =>
          decide (block.activityTypeId = activityTypeId))).map adjustedDuration).sum) ∧
    (∀ (routine : Routine) (activityTypes : List ActivityType) (row : WeeklyBreakdown),
      row ∈ getRoutineBreakdown routine activityTypes →
        row.plannedMinutes =
          ((routine.blocks.filter (fun block =>
            decide (block.activityTypeId = row.activityTypeId))).map
            adjustedDuration).sum)) :=
  ⟨by decide, adjustedDuration_wrap wrapBlock (by decide)⟩

/-- C3: `validateRoutineBlock` is valid (with an empty error list)
exactly when every constraint holds — both bounds present and in
`[0, 1439]` and distinct, day of week present and in `[0, 6]`, activity
id present and nonempty; otherwise it is invalid with at least one
error, and the checks are independent: the error count equals the
number of failing checks. -/
theorem validateRoutineBlock_spec (block : PartialRoutineBlock) :
    ((validateRoutineBlock block).isValid = true ↔
      ((∃ s, block.startMinutes = some s ∧ 0 ≤ s ∧ s ≤ 1439) ∧
       (∃ e, block.endMinutes = some e ∧ 0 ≤ e ∧ e ≤ 1439) ∧
       (∀ s e, block.startMinutes = some s → block.endMinutes = some e → s ≠ e) ∧
       (∃ d, block.dayOfWeek = some d ∧ 0 ≤ d ∧ d ≤ 6) ∧
       (∃ a, block.activityTypeId = some a ∧ a ≠ ""))) ∧
    ((validateRoutineBlock block).isValid = true →
      (validateRoutineBlock block).errors = []) ∧
    ((validateRoutineBlock block).isValid = false →
      (validateRoutineBlock block).errors ≠ []) ∧
    (validateRoutineBlock block).errors.length =
      (if minuteOutOfRange block.startMinutes then 1 else 0) +
      (if minuteOutOfRange block.endMinutes then 1 else 0) +
      (if zeroDurationCheck block.startMinutes block.endMinutes then 1 else 0) +
      (if dayOutOfRange block.dayOfWeek then 1 else 0) +
      (if activityMissing block.activityTypeId then 1 else 0) := by
  simp only [← minuteOutOfRange_eq_false, ← zeroDurationCheck_eq_false,
    ← dayOutOfRange_eq_false, ← activityMissing_eq_false]
  by_cases h1 : minuteOutOfRange block.startMinutes <;>
    by_cases h2 : minuteOutOfRange block.endMinutes <;>
    by_cases h3 : zeroDurationCheck block.startMinutes block.endMinutes <;>
    by_cases h4 : dayOutOfRange block.dayOfWeek <;>
    by_cases h5 : activityMissing block.activityTypeId <;>
    simp [validateRoutineBlock, h1, h2, h3, h4, h5]

/-- C6: `getRoutineBreakdown` returns (up to the descending stable sort)
one row per activity type with nonzero accumulated planned minutes, each
carrying `percentageOfWeek = plannedMinutes / 10080 * 100`; rows are
sorted descending by `plannedMinutes`, zero-minute activity types are
omitted, and two blocks of one activity type with durations 60 and 90
collapse into a single row with `plannedMinutes = 150`. -/
theorem getRoutineBreakdown_spec (routine : Routine) (activityTypes : List ActivityType) :
    (getRoutineBreakdown routine activityTypes).Perm
      ((activityTypes.map (breakdownRow (accumMinutes routine.blocks))).filter
        (fun b => decide (0 < b.plannedMinutes))) ∧
    List.Pairwise (fun x y => y.plannedMinutes ≤ x.plannedMinutes)
      (getRoutineBreakdown routine activityTypes) ∧
    (∀ row ∈ getRoutineBreakdown routine activityTypes,
      0 < row.plannedMinutes ∧
        row.percentageOfWeek = (row.plannedMinutes : Rat) / 10080 * 100) ∧
    (getRoutineBreakdown twoBlockRoutine oneActivityType).map
        (fun row => (row.activityTypeId, row.plannedMinutes, row.percentageOfWeek)) =
      [("a1", 150, (150 : Rat) / 10080 * 100)] := by
  refine ⟨List.mergeSort_perm _ _, ?_, ?_, ?_⟩
  · have h := @List.sorted_mergeSort WeeklyBreakdown
      (fun a b => decide (b.plannedMinutes ≤ a.plannedMinutes))
      (by intro a b c h1 h2; simp at *; omega)
      (by intro a b; simp; omega)
      ((activityTypes.map (breakdownRow (accumMinutes routine.blocks))).filter
        (fun b => decide (0 < b.plannedMinutes)))
    exact h.imp (fun hab => by simpa using hab)
  · intro row hrow
    simp only [getRoutineBreakdown, List.mem_mergeSort, List.mem_filter, List.mem_map,
      decide_eq_true_eq] at hrow
    obtain ⟨⟨a, _, rfl⟩, hpos⟩ := hrow
    refine ⟨hpos, ?_⟩
    simp [breakdownRow, MINUTES_IN_WEEK]
  · have h1 : (oneActivityType.map (breakdownRow (accumMinutes twoBlockRoutine.blocks))).filter
        (fun b => decide (0 < b.plannedMinutes)) =
        [breakdownRow (accumMinutes twoBlockRoutine.blocks)
          { id := "a1", name := "Deep Work", color := "#fff" }] := by
      simp [oneActivityType, breakdownRow, accumMinutes, twoBlockRoutine, adjustedDuration]
    simp only [getRoutineBreakdown, h1, List.mergeSort_singleton]
    simp [breakdownRow, accumMinutes, twoBlockRoutine, adjustedDuration, MINUTES_IN_WEEK]

/-- C7: for every minute-of-day `m` in `[0, 1439]`,
`timeStringToMinutes (minutesToTimeString m) = m` — the two time
conversions round-trip on the valid domain. -/
theorem timeString_roundTrip (m : Nat) (h : m < 1440) :
    timeStringToMinutes (minutesToTimeString m) = m := by
  have hh : m / 60 < 100 := by omega
  have hm : m % 60 < 100 := by omega
  have hsplit : splitColon (padTwo (natChars (m / 60)) ++ [':'] ++ padTwo (natChars (m % 60))) =
      [padTwo (natChars (m / 60)), padTwo (natChars (m % 60))] := by
    rw [List.append_assoc, List.singleton_append,
      splitColon_append _ _ (colon_not_mem_padTwo_natChars (m / 60)),
      splitColon_no_colon _ (colon_not_mem_padTwo_natChars (m % 60))]
  simp only [timeStringToMinutes, minutesToTimeString]
  show parseNumber ((splitColon (padTwo (natChars (m / 60)) ++ [':'] ++
        padTwo (natChars (m % 60)))).getD 0 []) * 60 +
      parseNumber ((splitColon (padTwo (natChars (m / 60)) ++ [':'] ++
        padTwo (natChars (m % 60)))).getD 1 []) = m
  rw [hsplit]
  simp only [List.getD_cons_zero, List.getD_cons_succ]
  rw [parseNumber_padTwo_natChars _ hh, parseNumber_padTwo_natChars _ hm]
  omega

/-- Witness for C7: 540 minutes renders as "09:00" and parses back. -/
theorem timeString_roundTrip_witness :
    540 < 1440 ∧ timeStringToMinutes (minutesToTimeString 540) = 540 :=
  ⟨by omega, timeString_roundTrip 540 (by omega)⟩

/-- C4: with a zero weekly allocation rate or nonpositive remaining
minutes, `predictGoalCompletion` degenerates: remaining ≤ 0 gives
completion "today" and 0 weeks remaining, otherwise both projections are
null; confidence is "low" regardless of the tracking history. -/
theorem predictGoalCompletion_degenerate (today : Int) (goal : Goal) (routine : Routine)
    (trackingHistory : Option (List TrackingEntry))
    (h : getWeeklyMinutesForActivityType routine goal.activityTypeId = 0 ∨
      goal.estimatedMinutes - goal.loggedMinutes ≤ 0) :
    (goal.estimatedMinutes - goal.loggedMinutes ≤ 0 →
      (predictGoalCompletion today goal routine trackingHistory).predictedCompletionDate =
        some today ∧
      (predictGoalCompletion today goal routine trackingHistory).weeksRemaining = some 0) ∧
    (0 < goal.estimatedMinutes - goal.loggedMinutes →
      (predictGoalCompletion today goal routine trackingHistory).predictedCompletionDate =
        none ∧
      (predictGoalCompletion today goal routine trackingHistory).weeksRemaining = none) ∧
    (predictGoalCompletion today goal routine trackingHistory).confidenceLevel =
      ConfidenceLevel.low := by
  simp only [predictGoalCompletion]
  rw [if_pos h]
  refine ⟨fun h2 => ⟨?_, ?_⟩, fun h2 => ⟨?_, ?_⟩, rfl⟩
  · show (if goal.estimatedMinutes - goal.loggedMinutes ≤ 0 then some today else none) =
      some today
    rw [if_pos h2]
  · show (if goal.estimatedMinutes - goal.loggedMinutes ≤ 0 then some (0 : Rat) else none) =
      some 0
    rw [if_pos h2]
  · show (if goal.estimatedMinutes - goal.loggedMinutes ≤ 0 then some today else none) = none
    rw [if_neg (by omega)]
  · show (if goal.estimatedMinutes - goal.loggedMinutes ≤ 0 then some (0 : Rat) else none) =
      none
    rw [if_neg (by omega)]

/-- Witness for C4: a fully logged goal (600 of 600 minutes) on an empty
routine is predicted complete "today" with 0 weeks remaining and low
confidence. -/
theorem predictGoalCompletion_degenerate_witness :
    (sampleGoalDone.estimatedMinutes - sampleGoalDone.loggedMinutes ≤ 0 →
      (predictGoalCompletion 0 sampleGoalDone emptyRoutine none).predictedCompletionDate =
        some 0 ∧
      (predictGoalCompletion 0 sampleGoalDone emptyRoutine none).weeksRemaining = some 0) ∧
    (0 < sampleGoalDone.estimatedMinutes - sampleGoalDone.loggedMinutes →
      (predictGoalCompletion 0 sampleGoalDone emptyRoutine none).predictedCompletionDate =
        none ∧
      (predictGoalCompletion 0 sampleGoalDone emptyRoutine none).weeksRemaining = none) ∧
    (predictGoalCompletion 0 sampleGoalDone emptyRoutine none).confidenceLevel =
      ConfidenceLevel.low :=
  predictGoalCompletion_degenerate 0 sampleGoalDone emptyRoutine none (Or.inr (by decide))

/-- C5: with a positive weekly rate and positive remaining minutes,
`predictGoalCompletion` projects `weeksRemaining = remaining / rate`, a
completion date `ceil(weeksRemaining * 7)` days after today, and grades
confidence by the number of history entries matching the goal's activity
type (≥ 14 high, ≥ 7 medium, otherwise low). -/
theorem predictGoalCompletion_projection (today : Int) (goal : Goal) (routine : Routine)
    (trackingHistory : Option (List TrackingEntry))
    (hw : 0 < getWeeklyMinutesForActivityType routine goal.activityTypeId)
    (hr : 0 < goal.estimatedMinutes - goal.loggedMinutes) :
    (predictGoalCompletion today goal routine trackingHistory).weeksRemaining =
      some (((goal.estimatedMinutes - goal.loggedMinutes : Int) : Rat) /
        ((getWeeklyMinutesForActivityType routine goal.activityTypeId : Int) : Rat)) ∧
    (predictGoalCompletion today goal routine trackingHistory).predictedCompletionDate =
      some (today + Int.ceil ((((goal.estimatedMinutes - goal.loggedMinutes : Int) : Rat) /
        ((getWeeklyMinutesForActivityType routine goal.activityTypeId : Int) : Rat)) * 7)) ∧
    (predictGoalCompletion today goal routine trackingHistory).confidenceLevel =
      (if 14 ≤ ((trackingHistory.getD []).filter
          (fun e => decide (e.activityTypeId = goal.activityTypeId))).length then
        ConfidenceLevel.high
      else if 7 ≤ ((trackingHistory.getD []).filter
          (fun e => decide (e.activityTypeId = goal.activityTypeId))).length then
        ConfidenceLevel.medium
      else ConfidenceLevel.low) := by
  have hcond : ¬(getWeeklyMinutesForActivityType routine goal.activityTypeId = 0 ∨
      goal.estimatedMinutes - goal.loggedMinutes ≤ 0) := by omega
  simp only [predictGoalCompletion]
  rw [if_neg hcond]
  refine ⟨rfl, rfl, ?_⟩
  cases trackingHistory with
  | none => simp
  | some history =>
    cases history with
    | nil => simp
    | cons e rest => simp

/-- Witness for C5: a goal with 600 minutes remaining, allocated 300
weekly minutes and no tracking history, yields 2 weeks remaining, a
completion date 14 days out, and low confidence. -/
theorem predictGoalCompletion_projection_witness :
    (predictGoalCompletion 0 sampleGoalOpen sampleRoutine300 none).weeksRemaining =
      some (((sampleGoalOpen.estimatedMinutes - sampleGoalOpen.loggedMinutes : Int) : Rat) /
        ((getWeeklyMinutesForActivityType sampleRoutine300
          sampleGoalOpen.activityTypeId : Int) : Rat)) ∧
    (predictGoalCompletion 0 sampleGoalOpen sampleRoutine300 none).predictedCompletionDate =
      some (0 + Int.ceil
        ((((sampleGoalOpen.estimatedMinutes - sampleGoalOpen.loggedMinutes : Int) : Rat) /
          ((getWeeklyMinutesForActivityType sampleRoutine300
            sampleGoalOpen.activityTypeId : Int) : Rat)) * 7)) ∧
    (predictGoalCompletion 0 sampleGoalOpen sampleRoutine300 none).confidenceLevel =
      (if 14 ≤ (((none : Option (List TrackingEntry)).getD []).filter
          (fun e => decide (e.activityTypeId = sampleGoalOpen.activityTypeId))).length then
        ConfidenceLevel.high
      else if 7 ≤ (((none : Option (List TrackingEntry)).getD []).filter
          (fun e => decide (e.activityTypeId = sampleGoalOpen.activityTypeId))).length then
        ConfidenceLevel.medium
      else ConfidenceLevel.low) :=
  predictGoalCompletion_projection 0 sampleGoalOpen sampleRoutine300 none
    (by decide) (by decide)

/-- C9 counterexample: at 59.5 minutes `formatDuration` rounds up to 60
and renders "1h", so the output contains an "h" suffix although
`minutes < 60` — the claimed "h iff minutes ≥ 60" fails on fractional
input. -/
theorem formatDuration_counterexample :
    (0 : Rat) ≤ 119 / 2 ∧ ¬(60 ≤ (119 / 2 : Rat)) ∧
      'h' ∈ (formatDuration (119 / 2)).data := by
  have hround : jsRound (119 / 2) = 60 := by
    simp [jsRound]
    norm_num
  refine ⟨by norm_num, by norm_num, ?_⟩
  simp only [formatDuration, hround]
  norm_num

/-- C9 (amended): for `minutes ≥ 0`, `formatDuration` rounds to the
nearest minute and renders "Nm" below an hour, "Xh" on exact hours, and
"Xh Ym" otherwise; the output contains an "h" if and only if the
*rounded* value is at least 60 (on integer input this is `minutes ≥
60`), and the output never ends in an "h 0m" trailing remainder. -/
theorem formatDuration_spec (minutes : Rat) (h : 0 ≤ minutes) :
    ('h' ∈ (formatDuration minutes).data ↔ 60 ≤ jsRound minutes) ∧
    ¬ List.IsSuffix ['h', ' ', '0', 'm'] (formatDuration minutes).data ∧
    (jsRound minutes < 60 →
      (formatDuration minutes).data = natChars (jsRound minutes).toNat ++ ['m']) ∧
    (60 ≤ jsRound minutes → Int.emod (jsRound minutes) 60 = 0 →
      (formatDuration minutes).data =
        natChars (Int.fdiv (jsRound minutes) 60).toNat ++ ['h']) ∧
    (60 ≤ jsRound minutes → Int.emod (jsRound minutes) 60 ≠ 0 →
      (formatDuration minutes).data =
        natChars (Int.fdiv (jsRound minutes) 60).toNat ++ ['h', ' '] ++
          natChars (Int.emod (jsRound minutes) 60).toNat ++ ['m']) := by
  have htot : 0 ≤ jsRound minutes := by
    apply Int.le_floor.mpr
    push_cast
    linarith
  by_cases ht60 : jsRound minutes < 60
  · -- "Nm" branch
    have hdata : (formatDuration minutes).data = natChars (jsRound minutes).toNat ++ ['m'] := by
      simp only [formatDuration]
      rw [if_pos ht60, stringData_mk]
    refine ⟨?_, ?_, fun _ => hdata, fun hc => by omega, fun hc => by omega⟩
    · rw [hdata]
      constructor
      · intro hmem
        rcases List.mem_append.mp hmem with hmem | hmem
        · exact absurd hmem (hChar_not_mem_natChars _)
        · simp at hmem
      · intro hc; omega
    · intro hs
      have hlen := hs.length_le
      rw [hdata] at hlen
      have : (natChars (jsRound minutes).toNat).length ≤ 2 :=
        natChars_length_le_two _ (by omega)
      simp at hlen
      omega
  · -- "Xh" / "Xh Ym" branches
    push_neg at ht60
    by_cases hrem : Int.emod (jsRound minutes) 60 = 0
    · -- "Xh"
      have hdata : (formatDuration minutes).data =
          natChars (Int.fdiv (jsRound minutes) 60).toNat ++ ['h'] := by
        simp only [formatDuration]
        rw [if_neg (by omega), if_pos hrem, stringData_mk]
      refine ⟨?_, ?_, fun hc => by omega, fun _ _ => hdata, fun _ hc => absurd hrem hc⟩
      · rw [hdata]
        simp [ht60]
      · intro hs
        obtain ⟨tl, htl⟩ := hs
        rw [hdata] at htl
        have e1 : (natChars (Int.fdiv (jsRound minutes) 60).toNat ++ ['h']).getLast? =
            some 'h' := List.getLast?_concat _
        have e2 : (tl ++ ['h', ' ', '0', 'm']).getLast? = some 'm' := by
          rw [show tl ++ ['h', ' ', '0', 'm'] = (tl ++ ['h', ' ', '0']) ++ ['m'] by simp]
          exact List.getLast?_concat _
        rw [htl, e1] at e2
        simp at e2
    · -- "Xh Ym"
      have hdata : (formatDuration minutes).data =
          natChars (Int.fdiv (jsRound minutes) 60).toNat ++ ['h', ' '] ++
            natChars (Int.emod (jsRound minutes) 60).toNat ++ ['m'] := by
        simp only [formatDuration]
        rw [if_neg (by omega), if_neg hrem, stringData_mk]
      have hmodpos : 0 < Int.emod (jsRound minutes) 60 :=
        lt_of_le_of_ne (Int.emod_nonneg (jsRound minutes) (by norm_num)) (Ne.symm hrem)
      have hmodlt : Int.emod (jsRound minutes) 60 < 60 :=
        Int.emod_lt_of_pos _ (by norm_num)
      have hY1 : 1 ≤ (Int.emod (jsRound minutes) 60).toNat := by omega
      have hY60 : (Int.emod (jsRound minutes) 60).toNat < 60 := by omega
      refine ⟨?_, ?_, fun hc => by omega, fun _ hc => absurd hc hrem, fun _ _ => hdata⟩
      · rw [hdata]
        simp [ht60]
      · intro hs
        obtain ⟨tl, htl⟩ := hs
        rw [hdata] at htl
        by_cases hY10 : (Int.emod (jsRound minutes) 60).toNat < 10
        · rw [natChars_small _ hY10] at htl
          have htl' : tl ++ ['h', ' ', '0', 'm'] =
              natChars (Int.fdiv (jsRound minutes) 60).toNat ++
                ['h', ' ', digitChar (Int.emod (jsRound minutes) 60).toNat, 'm'] := by
            rw [htl]; simp
          have heq := (List.append_inj' htl' (by simp)).2
          simp at heq
          exact absurd (digitChar_eq_zero _ hY10 heq.symm) (by omega)
        · rw [natChars_mid ((Int.emod (jsRound minutes) 60).toNat) (by omega) (by omega)] at htl
          have htl' : tl ++ ['h', ' ', '0', 'm'] =
              (natChars (Int.fdiv (jsRound minutes) 60).toNat ++ ['h']) ++
                [' ', digitChar ((Int.emod (jsRound minutes) 60).toNat / 10),
                 digitChar ((Int.emod (jsRound minutes) 60).toNat % 10), 'm'] := by
            rw [htl]; simp
          have heq := (List.append_inj' htl' (by simp)).2
          simp at heq

/-- Witness for C9 (amended) at 0 minutes ("0m"). -/
theorem formatDuration_spec_witness :
    (0 : Rat) ≤ 0 ∧
    (('h' ∈ (formatDuration 0).data ↔ 60 ≤ jsRound 0) ∧
    ¬ List.IsSuffix ['h', ' ', '0', 'm'] (formatDuration 0).data ∧
    (jsRound 0 < 60 →
      (formatDuration 0).data = natChars (jsRound 0).toNat ++ ['m']) ∧
    (60 ≤ jsRound 0 → Int.emod (jsRound 0) 60 = 0 →
      (formatDuration 0).data =
        natChars (Int.fdiv (jsRound 0) 60).toNat ++ ['h']) ∧
    (60 ≤ jsRound 0 → Int.emod (jsRound 0) 60 ≠ 0 →
      (formatDuration 0).data =
        natChars (Int.fdiv (jsRound 0) 60).toNat ++ ['h', ' '] ++
          natChars (Int.emod (jsRound 0) 60).toNat ++ ['m'])) :=
  ⟨le_refl 0, formatDuration_spec 0 (le_refl 0)⟩

end ZenRoutine
